import Mathlib

/-!
Shallow embedding of the IFC geometry synthesizer (`IFCGeometry.cpp`) —
the opening-resolution pipeline of the assimp IFC importer.

Modelling conventions:
* `IfcFloat` values are modelled as exact rationals (`ℚ`); floating-point
  rounding is out of scope.  Comparisons of the form `|t| < diag/1000`
  (where `diag` is a Euclidean length, hence irrational in general) are
  rendered in the equivalent squared form `t^2 * 1000000 < diagSq`,
  which is exactly equivalent over the reals for `diag ≥ 0`.
* Vector normalization (`v.Normalize()`) only ever feeds sign tests or
  threshold tests in the modelled code; every such test is rendered in an
  algebraically equivalent square/sign form that avoids square roots and
  agrees with the C++ semantics, including the degenerate `v = 0` case
  (where the C++ produces NaN and every `<`/`>` comparison yields false).
* The ClipperLib polygon engine and poly2tri triangulator are external
  contrib libraries (the spec, §4.4/§4.5, specifies them as interfaces);
  their operations appear as explicit function parameters.
* `std::numeric_limits` infinities used by `MinMaxChooser` are modelled by
  the sentinel `qInf`; all participating values are clamped to `[0,1]`
  (or are small scene coordinates), so any sentinel larger than every
  value occurring in a run behaves identically.
-/

namespace IFC

/-- Two-dimensional vector (`IfcVector2`), over exact rationals. -/
structure V2 where
  x : ℚ
  y : ℚ
deriving DecidableEq, Repr

/-- Three-dimensional vector (`IfcVector3`), over exact rationals. -/
structure V3 where
  x : ℚ
  y : ℚ
  z : ℚ
deriving DecidableEq, Repr

/-- Componentwise subtraction of 2D vectors. -/
def V2.sub (a b : V2) : V2 := ⟨a.x - b.x, a.y - b.y⟩

/-- Squared Euclidean length of a 2D vector (`SquareLength`). -/
def V2.squareLength (a : V2) : ℚ := a.x * a.x + a.y * a.y

/-- Componentwise minimum of 2D vectors (the `std::min` clamp used in the source). -/
def V2.min2 (a b : V2) : V2 := ⟨min a.x b.x, min a.y b.y⟩

/-- Componentwise maximum of 2D vectors. -/
def V2.max2 (a b : V2) : V2 := ⟨max a.x b.x, max a.y b.y⟩

/-- Componentwise subtraction of 3D vectors. -/
def V3.sub (a b : V3) : V3 := ⟨a.x - b.x, a.y - b.y, a.z - b.z⟩

/-- Componentwise addition of 3D vectors. -/
def V3.add (a b : V3) : V3 := ⟨a.x + b.x, a.y + b.y, a.z + b.z⟩

/-- Scalar multiple of a 3D vector. -/
def V3.smul (t : ℚ) (a : V3) : V3 := ⟨t * a.x, t * a.y, t * a.z⟩

/-- Dot product of 3D vectors (the `operator*` of `aiVector3t`). -/
def V3.dot (a b : V3) : ℚ := a.x * b.x + a.y * b.y + a.z * b.z

/-- Cross product of 3D vectors (the `operator^` of `aiVector3t`). -/
def V3.cross (a b : V3) : V3 :=
  ⟨a.y * b.z - a.z * b.y, a.z * b.x - a.x * b.z, a.x * b.y - a.y * b.x⟩

/-- Squared Euclidean length of a 3D vector. -/
def V3.squareLength (a : V3) : ℚ := a.x * a.x + a.y * a.y + a.z * a.z

/-- Sentinel standing in for the `std::numeric_limits` infinity that
`MinMaxChooser` uses to seed running minima/maxima.  Every coordinate that
flows into such a fold in this file lies in `[0,1]` (sanity-clamped) or is
bounded by the scene, so this sentinel behaves exactly like `+∞`. -/
def qInf : ℚ := 10 ^ 30

/-- Seed for a running 2D minimum (`MinMaxChooser<IfcVector2>` min part). -/
def v2Inf : V2 := ⟨qInf, qInf⟩

/-- Seed for a running 2D maximum. -/
def v2NegInf : V2 := ⟨-qInf, -qInf⟩

/-- TempMesh: the append-only polygon soup — an ordered vertex sequence and a
parallel sequence of per-face vertex counts. -/
structure TempMesh where
  verts : List V3
  vertcnt : List ℕ
deriving DecidableEq, Repr

/-- The empty mesh. -/
def TempMesh.empty : TempMesh := ⟨[], []⟩

/-- TempMesh structural invariant from the spec (§3): the sum of the per-face
vertex counts equals the length of the vertex sequence. -/
def TempMesh.sumInvariant (m : TempMesh) : Prop :=
  m.vertcnt.sum = m.verts.length

/-!
## ProcessPolyloop (IFCGeometry.cpp lines 78–101)

The C++ converts each `IfcCartesianPoint` of the loop and appends it to
`meshout.verts`, pushes the count, then:

* count > 1: return true;
* count == 1: pop the count and the single vertex, return false;
* count == 0: return false — note that the pushed `0` entry in `vertcnt`
  is NOT removed.

Point conversion (`ConvertCartesianPoint`) is outside this file's scope;
the model takes the already-converted points.
-/

/-- Shallow embedding of `ProcessPolyloop`: `pts` are the converted points of
`loop.Polygon`; returns the C++ boolean result and the updated mesh. -/
def ProcessPolyloop (pts : List V3) (meshout : TempMesh) : Bool × TempMesh :=
  let m1 : TempMesh := ⟨meshout.verts ++ pts, meshout.vertcnt ++ [pts.length]⟩
  if pts.length > 1 then
    (true, m1)
  else if pts.length = 1 then
    (false, ⟨m1.verts.dropLast, m1.vertcnt.dropLast⟩)
  else
    (false, m1)

/-!
## HalfSpaceClipper (IFCGeometry.cpp lines 2092–2217)
-/

/-- Result of the segment/plane intersection test (`enum Intersect`). -/
inductive Intersect where
  | no
  | liesOnPlane
  | yes (out : V3)
deriving DecidableEq, Repr

/-- Shallow embedding of `IntersectSegmentPlane` (lines 2099–2117): intersect
the segment `e0 → e1` with the plane through `p` with normal `n`. -/
def IntersectSegmentPlane (p n e0 e1 : V3) : Intersect :=
  if |n.dot (e1.sub e0)| < 1/1000000 then
    (if |(-(n.dot (e0.sub p)))| < 1/1000000 then .liesOnPlane else .no)
  else if (-(n.dot (e0.sub p))) / n.dot (e1.sub e0) > 1 ∨
          (-(n.dot (e0.sub p))) / n.dot (e1.sub e0) < 0 then .no
  else .yes (e0.add (V3.smul ((-(n.dot (e0.sub p))) / n.dot (e1.sub e0)) (e1.sub e0)))

/-- Vertices pushed for one edge `e0 → e1` of a face during the clip (the body
of the inner loop, lines 2157–2181).  The C++ side test is
`(e0-p).Normalize()*n > 0`; normalization does not change the sign, and for
`e0 = p` the C++ NaN comparison yields false just as `0 > 0` does, so the test
is rendered as `0 < (e0-p)·n`. -/
def clipEdgePush (p n e0 e1 : V3) : List V3 :=
  match IntersectSegmentPlane p n e0 e1 with
  | .yes isectpos =>
      if 0 < (e0.sub p).dot n then [e0, isectpos] else [isectpos]
  | _ =>
      if 0 < (e0.sub p).dot n then [e0] else []

/-- Componentwise minimum of a list of 3D points, seeded by the first point
(`ArrayBounds` from ProcessHelper.h; not part of this translation unit).
Modelled from the spec: `ε = |bbox|² / 10⁶` — the bounding box of the face's
freshly pushed points, computed componentwise. -/
def arrayBoundsMin : List V3 → V3
  | [] => ⟨0, 0, 0⟩
  | v :: vs => vs.foldl (fun a b => ⟨min a.x b.x, min a.y b.y, min a.z b.z⟩) v

/-- Componentwise maximum of a list of 3D points, seeded by the first point. -/
def arrayBoundsMax : List V3 → V3
  | [] => ⟨0, 0, 0⟩
  | v :: vs => vs.foldl (fun a b => ⟨max a.x b.x, max a.y b.y, max a.z b.z⟩) v

/-- FuzzyVectorCompare (IFCUtil.h, not part of this translation unit).
Modelled from the spec: two points are near-duplicates when their squared
distance is below the tolerance. -/
def fuzzyEq (eps : ℚ) (a b : V3) : Bool :=
  decide ((a.sub b).squareLength < eps)

/-- Helper for `std::unique`: drop every element fuzzy-equal to the last kept
element. -/
def uniqueFuzzyGo (eps : ℚ) (kept : V3) : List V3 → List V3
  | [] => []
  | y :: ys => if fuzzyEq eps kept y then uniqueFuzzyGo eps kept ys
               else y :: uniqueFuzzyGo eps y ys

/-- Embedding of `std::unique(begin, end, fz)`: keep the first element of each
run of fuzzy-equal elements. -/
def uniqueFuzzy (eps : ℚ) : List V3 → List V3
  | [] => []
  | x :: xs => x :: uniqueFuzzyGo eps x xs

/-- Embedding of the closing-vertex check (line 2204): if the first surviving
vertex of the face fuzzy-equals the last one, the last is popped. -/
def wrapTrim (eps : ℚ) : List V3 → List V3
  | [] => []
  | y :: ys => if fuzzyEq eps y (ys.getLastD y) then (y :: ys).dropLast
               else y :: ys

/-- Postprocessing of one clipped face (lines 2184–2213): compute the fuzzy
tolerance from the face's bounding box, deduplicate consecutive vertices,
drop the closing vertex if it fuzzy-equals the first, and drop the face
entirely if fewer than 3 vertices survive.  Returns the surviving vertex run
(`[]` when the face is dropped). -/
def clipFace (p n : V3) (face : List V3) : List V3 :=
  let pushed := (face.zip (face.drop 1 ++ face.take 1)).flatMap
    (fun pr => clipEdgePush p n pr.1 pr.2)
  match pushed with
  | [] => []
  | x :: xs =>
    let vmin := arrayBoundsMin (x :: xs)
    let vmax := arrayBoundsMax (x :: xs)
    let epsilon := (vmax.sub vmin).squareLength / 1000000
    let u2 := wrapTrim epsilon (uniqueFuzzy epsilon (x :: xs))
    if u2.length > 2 then u2 else []

/-- Split a mesh's flat vertex sequence into its per-face vertex lists,
following the `vidx += *iit++` iteration of the source. -/
def splitFaces : List ℕ → List V3 → List (List V3)
  | [], _ => []
  | c :: cs, vs => vs.take c :: splitFaces cs (vs.drop c)

/-- Per-face step of the half-space clipping loop: append the clipped face
when more than 2 vertices survive (`if(newcount > 2)`), else drop its pushed
vertices. -/
def clipStep (p n : V3) (acc : TempMesh) (face : List V3) : TempMesh :=
  if (clipFace p n face).length > 2 then
    ⟨acc.verts ++ clipFace p n face, acc.vertcnt ++ [(clipFace p n face).length]⟩
  else acc

/-- Shallow embedding of the clipping loop of `ProcessBooleanHalfSpaceDifference`
(lines 2153–2215): clip every face of `first_operand` against the plane
through `p` with normal `n`.  Extraction of `p` and `n` from the
`IfcHalfSpaceSolid` record (lines 2126–2141) is IFC-entity resolution and is
taken as input. -/
def ProcessBooleanHalfSpaceDifference (p n : V3) (first_operand : TempMesh) : TempMesh :=
  (splitFaces first_operand.vertcnt first_operand.verts).foldl
    (clipStep p n) TempMesh.empty

/-- An intersection point returned by `IntersectSegmentPlane` lies exactly on
the plane. -/
lemma intersect_yes_on_plane (p n e0 e1 out : V3)
    (h : IntersectSegmentPlane p n e0 e1 = .yes out) :
    (out.sub p).dot n = 0 := by
  unfold IntersectSegmentPlane at h
  by_cases h1 : |n.dot (e1.sub e0)| < 1/1000000
  · rw [if_pos h1] at h
    split at h <;> exact absurd h (by simp)
  · rw [if_neg h1] at h
    by_cases h2 : (-(n.dot (e0.sub p))) / n.dot (e1.sub e0) > 1 ∨
        (-(n.dot (e0.sub p))) / n.dot (e1.sub e0) < 0
    · rw [if_pos h2] at h
      exact absurd h (by simp)
    · rw [if_neg h2] at h
      have hne : n.dot (e1.sub e0) ≠ 0 := by
        intro hz
        apply h1
        rw [hz]
        norm_num
      injection h with hout
      subst hout
      simp only [V3.sub, V3.dot, V3.add, V3.smul] at hne ⊢
      field_simp
      ring

/-- Every vertex pushed by `clipEdgePush` lies on the closed positive side of
the plane. -/
lemma clipEdgePush_side (p n e0 e1 : V3) (v : V3)
    (hv : v ∈ clipEdgePush p n e0 e1) : 0 ≤ (v.sub p).dot n := by
  unfold clipEdgePush at hv
  split at hv
  · rename_i isectpos heq
    have hz := intersect_yes_on_plane p n e0 e1 isectpos heq
    split at hv
    · rename_i hpos
      rcases List.mem_cons.mp hv with hv | hv
      · rw [hv]; linarith
      · rw [List.mem_singleton.mp hv]; linarith
    · rw [List.mem_singleton.mp hv]; linarith
  · split at hv
    · rename_i hpos
      rw [List.mem_singleton.mp hv]
      linarith
    · simp at hv

/-- Membership is preserved backwards by `uniqueFuzzyGo`. -/
lemma uniqueFuzzyGo_subset (eps : ℚ) (kept : V3) (l : List V3) (v : V3)
    (hv : v ∈ uniqueFuzzyGo eps kept l) : v ∈ l := by
  induction l generalizing kept with
  | nil => simp [uniqueFuzzyGo] at hv
  | cons y ys ih =>
    unfold uniqueFuzzyGo at hv
    split at hv
    · exact List.mem_cons_of_mem _ (ih kept hv)
    · rcases List.mem_cons.mp hv with h | h
      · exact h ▸ List.mem_cons_self _ _
      · exact List.mem_cons_of_mem _ (ih y h)

/-- Membership is preserved backwards by `uniqueFuzzy`. -/
lemma uniqueFuzzy_subset (eps : ℚ) (l : List V3) (v : V3)
    (hv : v ∈ uniqueFuzzy eps l) : v ∈ l := by
  cases l with
  | nil => simp [uniqueFuzzy] at hv
  | cons x xs =>
    unfold uniqueFuzzy at hv
    rcases List.mem_cons.mp hv with h | h
    · exact h ▸ List.mem_cons_self _ _
    · exact List.mem_cons_of_mem _ (uniqueFuzzyGo_subset eps x xs v h)

/-- Membership is preserved backwards by `wrapTrim`. -/
lemma wrapTrim_subset (eps : ℚ) (l : List V3) (v : V3)
    (hv : v ∈ wrapTrim eps l) : v ∈ l := by
  cases l with
  | nil => simp [wrapTrim] at hv
  | cons y ys =>
    simp only [wrapTrim] at hv
    split at hv
    · exact List.dropLast_subset _ hv
    · exact hv

/-- Every vertex surviving `clipFace` was pushed by some `clipEdgePush`, hence
lies on the closed positive side of the plane. -/
lemma clipFace_side (p n : V3) (face : List V3) (v : V3)
    (hv : v ∈ clipFace p n face) : 0 ≤ (v.sub p).dot n := by
  unfold clipFace at hv
  rcases hpush : (face.zip (face.drop 1 ++ face.take 1)).flatMap
      (fun pr => clipEdgePush p n pr.1 pr.2) with _ | ⟨x, xs⟩
  all_goals rw [hpush] at hv
  · simp at hv
  · have hmem : v ∈ x :: xs := by
      simp only at hv
      split at hv
      case isTrue h =>
        exact uniqueFuzzy_subset _ _ v (wrapTrim_subset _ _ v hv)
      case isFalse h => simp at hv
    have hflat : v ∈ (face.zip (face.drop 1 ++ face.take 1)).flatMap
        (fun pr => clipEdgePush p n pr.1 pr.2) := by rw [hpush]; exact hmem
    rcases List.mem_flatMap.mp hflat with ⟨pr, _, hpr⟩
    exact clipEdgePush_side p n pr.1 pr.2 v hpr

/-- Invariant carried through the half-space clipping fold: the face-count sum
matches the vertex count, every face has at least 3 vertices, and every vertex
lies on the closed positive side of the plane. -/
lemma clipFold_inv (p n : V3) (faces : List (List V3)) (acc : TempMesh)
    (hsum : acc.vertcnt.sum = acc.verts.length)
    (hcnt : ∀ c ∈ acc.vertcnt, 3 ≤ c)
    (hside : ∀ v ∈ acc.verts, 0 ≤ (v.sub p).dot n) :
    (faces.foldl (clipStep p n) acc).vertcnt.sum
        = (faces.foldl (clipStep p n) acc).verts.length ∧
    (∀ c ∈ (faces.foldl (clipStep p n) acc).vertcnt, 3 ≤ c) ∧
    (∀ v ∈ (faces.foldl (clipStep p n) acc).verts, 0 ≤ (v.sub p).dot n) := by
  induction faces generalizing acc with
  | nil => exact ⟨hsum, hcnt, hside⟩
  | cons f fs ih =>
    simp only [List.foldl_cons]
    apply ih
    · unfold clipStep
      split
      · simp [hsum, List.sum_append]
      · exact hsum
    · intro c hc
      unfold clipStep at hc
      split at hc
      · rename_i hlen
        rcases List.mem_append.mp hc with h | h
        · exact hcnt c h
        · rw [List.mem_singleton.mp h]
          omega
      · exact hcnt c hc
    · intro v hv
      unfold clipStep at hv
      split at hv
      · rcases List.mem_append.mp hv with h | h
        · exact hside v h
        · exact clipFace_side p n f v h
      · exact hside v hv

/-- C7: the half-space clipper keeps vertices on the `(e − p)·n > 0` side,
inserts exact segment–plane intersection points, removes near-duplicates and
drops faces with fewer than 3 survivors; consequently every vertex of the
output mesh lies on the closed positive side of the clipping plane
(for `n = (1,0,0)`, `p = 0` this is exactly `x ≥ 0`), the face-count sum
equals the vertex-sequence length, and every emitted face has ≥ 3 vertices. -/
theorem C7_halfspace_clip_side (p n : V3) (first_operand : TempMesh) :
    (∀ v ∈ (ProcessBooleanHalfSpaceDifference p n first_operand).verts,
        0 ≤ (v.sub p).dot n) ∧
    (ProcessBooleanHalfSpaceDifference p n first_operand).vertcnt.sum
        = (ProcessBooleanHalfSpaceDifference p n first_operand).verts.length ∧
    (∀ c ∈ (ProcessBooleanHalfSpaceDifference p n first_operand).vertcnt, 3 ≤ c) := by
  have h := clipFold_inv p n (splitFaces first_operand.vertcnt first_operand.verts)
    TempMesh.empty (by rfl) (by intro c hc; simp [TempMesh.empty] at hc)
    (by intro v hv; simp [TempMesh.empty] at hv)
  unfold ProcessBooleanHalfSpaceDifference
  exact ⟨h.2.2, h.1, h.2.1⟩

/-- Cube of side 2 centred at the origin, as a quad mesh (the concrete input
of the half-space clip scenario). -/
def cube2 : TempMesh :=
  ⟨[⟨1, -1, -1⟩, ⟨1, 1, -1⟩, ⟨1, 1, 1⟩, ⟨1, -1, 1⟩,
    ⟨-1, -1, -1⟩, ⟨-1, -1, 1⟩, ⟨-1, 1, 1⟩, ⟨-1, 1, -1⟩,
    ⟨-1, 1, -1⟩, ⟨-1, 1, 1⟩, ⟨1, 1, 1⟩, ⟨1, 1, -1⟩,
    ⟨-1, -1, -1⟩, ⟨1, -1, -1⟩, ⟨1, -1, 1⟩, ⟨-1, -1, 1⟩,
    ⟨-1, -1, 1⟩, ⟨1, -1, 1⟩, ⟨1, 1, 1⟩, ⟨-1, 1, 1⟩,
    ⟨-1, -1, -1⟩, ⟨-1, 1, -1⟩, ⟨1, 1, -1⟩, ⟨1, -1, -1⟩],
   [4, 4, 4, 4, 4, 4]⟩

/-- Witness: the clipped cube is non-trivial and the theorem applies to one of
its concrete output vertices. -/
theorem C7_halfspace_clip_side_witness :
    0 ≤ ((⟨1, -1, -1⟩ : V3).sub ⟨0, 0, 0⟩).dot ⟨1, 0, 0⟩ :=
  (C7_halfspace_clip_side ⟨0, 0, 0⟩ ⟨1, 0, 0⟩ cube2).1 ⟨1, -1, -1⟩
    (by with_unfolding_all decide)

/-!
## C3: the TempMesh invariant and ProcessPolyloop

The spec (§3, §8) demands: face-count sum equals vertex-sequence length,
every count ≥ 3 after cleanup, and **no count is 0**; the source itself
asserts the latter downstream (`ai_assert(std::count(inmesh.vertcnt.begin(),
inmesh.vertcnt.end(), 0) == 0)` in `ProcessPolygonBoundaries`, line 115), and
the comment at line 91 says zero-vertex polyloops are "simply ignored".
However, for a zero-vertex polyloop `ProcessPolyloop` pushes the count `0`
(line 89) and never removes it — only the one-vertex case is popped — so the
mesh handed on to `ProcessPolygonBoundaries` carries a `0` face count,
contradicting the invariant, the comment, and the assertion. -/

/-- C3: evaluating `ProcessPolyloop` at the failing input — a polyloop with an
empty point list — shows the returned mesh keeps a face count of `0`, which
violates the "no face count is 0" invariant the claim states (while the sum
invariant itself still holds and the half-space clipper preserves the full
invariant, see `C7_halfspace_clip_side`). -/
theorem C3_processPolyloop_zero_count :
    (ProcessPolyloop [] TempMesh.empty).2.vertcnt = [0] ∧
    (0 ∈ (ProcessPolyloop [] TempMesh.empty).2.vertcnt) ∧
    (ProcessPolyloop [] TempMesh.empty).1 = false := by
  decide

/-!
## ProcessRevolvedAreaSolid (IFCGeometry.cpp lines 251–335)
-/

/-- Modelled from the spec: the constant `AI_MATH_HALF_PI_F` (π/2 as a 32-bit
float) lives in a header outside this translation unit; this is the exact
rational value of the float nearest to π/2, namely `13176795 / 2^23`. -/
def halfPiF : ℚ := 13176795 / 8388608

/-- Modelled from the spec: the constant `AI_MATH_TWO_PI_F` (2π as a 32-bit
float), exactly `13176795 / 2^21`. -/
def twoPiF : ℚ := 13176795 / 2097152

/-- Embedding of the segment-count computation (line 279):
`std::max(2u, static_cast<unsigned int>(16 * fabs(max_angle)/AI_MATH_HALF_PI_F))`.
The C++ float-to-unsigned cast truncates toward zero; the operand is
non-negative, so this is a floor. -/
def cnt_segments (maxAngle : ℚ) : ℕ :=
  max 2 (Int.toNat ⌊16 * |maxAngle| / halfPiF⌋)

/-- The segment count as the spec (§4.11) words it:
`max(2, ⌈16 · |θ| / (π/2)⌉)` — a CEILING.  Stated with the same float
constant for π/2 the code uses; with the real π/2 the floor/ceiling values
at the counterexample below are the same, since `32/π ≈ 10.186` is far from
an integer. -/
def cntSegmentsSpec (maxAngle : ℚ) : ℕ :=
  max 2 (Int.toNat ⌈16 * |maxAngle| / halfPiF⌉)

/-- Body of the revolution loop for one segment (lines 299–309): for each
profile vertex, emit one quad built from the previous ring (read at
`base + i*4 + 3`) and its rotated copy. -/
def revolveRing (rot : V3 → V3) (size base : ℕ) (st : List V3 × List ℕ) :
    List V3 × List ℕ :=
  (List.range size).foldl (fun st i =>
    let next := (i + 1) % size
    let base_0 := st.1.getD (base + i * 4 + 3) ⟨0, 0, 0⟩
    let base_1 := st.1.getD (base + next * 4 + 3) ⟨0, 0, 0⟩
    (st.1 ++ [base_0, base_1, rot base_1, rot base_0], st.2 ++ [4])) st

/-- The outer `for(seg = 0; seg < cnt_segments; ++seg)` loop (lines 298–311),
threading `base += size*4`. -/
def segLoopGo (rot : V3 → V3) (size : ℕ) : ℕ → ℕ → List V3 × List ℕ → List V3 × List ℕ
  | 0, _, st => st
  | r + 1, base, st => segLoopGo rot size r (base + size * 4) (revolveRing rot size base st)

/-- The two capping polygons (lines 315–328): after the dummy ring is erased,
read the cap vertices from the revolved vertex list. -/
def capVerts (out2 : List V3) (size cnt : ℕ) : List V3 :=
  let base := cnt * size * 4 - size * 8
  let cap1 := (List.range size).reverse.map
    (fun i => out2.getD (base + i * 4 + 3) ⟨0, 0, 0⟩)
  let cap2 := (List.range size).map
    (fun i => (out2 ++ cap1).getD (i * 4) ⟨0, 0, 0⟩)
  out2 ++ cap1 ++ cap2

/-- Shallow embedding of `ProcessRevolvedAreaSolid` (lines 251–335).  The
profile (`meshout` produced by `ProcessProfile`) is taken as input;
`isArea` is the `ProfileType == "AREA"` flag; `maxAngle` is
`solid.Angle * conv.angle_scale`; `rot` abstracts the rotation by
`delta = maxAngle/cnt_segments` about the placement axis and `trafo` the
final placement transform (both built by `ConvertAxisPlacement` from
trigonometric entries, outside the rational fragment). -/
def ProcessRevolvedAreaSolid (profileVerts : List V3) (profileCnt : List ℕ)
    (isArea : Bool) (maxAngle : ℚ) (rot trafo : V3 → V3) : TempMesh :=
  if profileVerts.length ≤ 1 then TempMesh.empty
  else
    let size := profileVerts.length
    if |maxAngle| < 1/1000 then
      (if isArea ∧ 2 < size then ⟨profileVerts, profileCnt⟩ else TempMesh.empty)
    else
      let cnt := cnt_segments maxAngle
      let has_area := (isArea ∧ 2 < size) ∧ |maxAngle| < twoPiF * (99/100)
      let out0 := profileVerts.flatMap (fun v => [v, v, v, v])
      let st := segLoopGo rot size cnt 0 (out0, [])
      let out2 := st.1.drop (size * 4)
      if has_area then
        ⟨(capVerts out2 size cnt).map trafo, st.2 ++ [size, size]⟩
      else
        ⟨out2.map trafo, st.2⟩

/-- The revolution loop pushes exactly `size` quad counts per segment. -/
lemma revolveRing_vc (rot : V3 → V3) (size base : ℕ) (st : List V3 × List ℕ) :
    (revolveRing rot size base st).2 = st.2 ++ List.replicate size 4 := by
  unfold revolveRing
  have hgen : ∀ (l : List ℕ) (st : List V3 × List ℕ),
      (l.foldl (fun st i =>
        let next := (i + 1) % size
        let base_0 := st.1.getD (base + i * 4 + 3) (⟨0, 0, 0⟩ : V3)
        let base_1 := st.1.getD (base + next * 4 + 3) (⟨0, 0, 0⟩ : V3)
        (st.1 ++ [base_0, base_1, rot base_1, rot base_0], st.2 ++ [4])) st).2
      = st.2 ++ List.replicate l.length 4 := by
    intro l
    induction l with
    | nil => intro st; simp
    | cons a l ih =>
      intro st
      simp only [List.foldl_cons, ih, List.length_cons, List.replicate_succ]
      simp [List.append_assoc]
  simpa using hgen (List.range size) st

/-- The outer segment loop pushes `r * size` quad counts in total. -/
lemma segLoopGo_vc (rot : V3 → V3) (size : ℕ) (r base : ℕ) (st : List V3 × List ℕ) :
    (segLoopGo rot size r base st).2 = st.2 ++ List.replicate (r * size) 4 := by
  induction r generalizing base st with
  | zero => simp [segLoopGo]
  | succ k ih =>
    simp only [segLoopGo, ih, revolveRing_vc]
    rw [List.append_assoc, ← List.replicate_add]
    have hmul : size + k * size = (k + 1) * size := by ring
    rw [hmul]

/-- C8 counterexample: at total angle `θ = 1` the code's segment count is
`max(2, ⌊16/(π/2)⌋) = 10` (the float-to-unsigned cast truncates), not the
claimed `max(2, ⌈16/(π/2)⌉) = 11`; and for `|θ| < 10⁻³` with a 2-vertex
profile the function returns the empty mesh, not the original profile (the
profile is returned only for an AREA profile with at least 3 vertices). -/
theorem C8_revolution_counterexample :
    cnt_segments 1 = 10 ∧ cntSegmentsSpec 1 = 11 ∧
    ProcessRevolvedAreaSolid [⟨1, 0, 0⟩, ⟨1, 0, 1⟩] [2] true (1/10000) id id
      = TempMesh.empty ∧
    TempMesh.empty ≠ (⟨[⟨1, 0, 0⟩, ⟨1, 0, 1⟩], [2]⟩ : TempMesh) := by
  with_unfolding_all decide

/-- C8 amended: for a profile with more than one vertex, (a) when
`|θ| < 10⁻³` the revolution degenerates — the original profile is returned
when it is an AREA profile with ≥ 3 vertices and the empty mesh otherwise;
(b) when `|θ| ≥ 10⁻³` the mesh consists of `max(2, ⌊16·|θ|/(π/2)⌋)`
quad rings of `size` quads each, followed by the two capping polygons
exactly when the profile is an AREA with ≥ 3 vertices and
`|θ| < 2π · 0.99` — so caps are emitted only when `|θ| < 2π · 0.99`. -/
theorem C8_revolution_amended (profileVerts : List V3) (profileCnt : List ℕ)
    (isArea : Bool) (maxAngle : ℚ) (rot trafo : V3 → V3)
    (hsize : 1 < profileVerts.length) :
    (|maxAngle| < 1/1000 →
      ProcessRevolvedAreaSolid profileVerts profileCnt isArea maxAngle rot trafo
        = if isArea ∧ 2 < profileVerts.length then (⟨profileVerts, profileCnt⟩ : TempMesh)
          else TempMesh.empty) ∧
    (1/1000 ≤ |maxAngle| →
      (ProcessRevolvedAreaSolid profileVerts profileCnt isArea maxAngle rot trafo).vertcnt
        = List.replicate (cnt_segments maxAngle * profileVerts.length) 4
          ++ (if (isArea ∧ 2 < profileVerts.length) ∧ |maxAngle| < twoPiF * (99/100)
              then [profileVerts.length, profileVerts.length] else [])) := by
  constructor
  · intro hdeg
    unfold ProcessRevolvedAreaSolid
    rw [if_neg (by omega), if_pos hdeg]
  · intro hlarge
    unfold ProcessRevolvedAreaSolid
    rw [if_neg (by omega), if_neg (not_lt.mpr hlarge)]
    have hvc := segLoopGo_vc rot profileVerts.length (cnt_segments maxAngle) 0
      (profileVerts.flatMap (fun v => [v, v, v, v]), [])
    split
    · rename_i h
      simp [hvc, h]
    · rename_i h
      simp [hvc, h]

/-- Witness: a concrete triangle AREA profile revolved by `θ = 1` produces
`10 · 3` quads plus two triangle caps. -/
theorem C8_revolution_amended_witness :
    (ProcessRevolvedAreaSolid [⟨1, 0, 0⟩, ⟨2, 0, 0⟩, ⟨1, 0, 1⟩] [3] true 1 id id).vertcnt
      = List.replicate 30 4 ++ [3, 3] := by
  have h := (C8_revolution_amended [⟨1, 0, 0⟩, ⟨2, 0, 0⟩, ⟨1, 0, 1⟩] [3] true 1 id id
    (by decide)).2 (by norm_num)
  rw [h]
  with_unfolding_all decide

/-!
## Quadrify (IFCGeometry.cpp lines 850–956 and 1617–1654)
-/

/-- BoundingBox: `typedef std::pair<IfcVector2, IfcVector2>` (line 862), with
the pair's `first`/`second` field names kept. -/
structure BoundingBox where
  first : V2
  second : V2
deriving DecidableEq, Repr

/-- XYSorter (lines 851–859): sort first by X coordinates, then by Y
coordinates.  Note the comparison is EXACT — no epsilon. -/
def xyLess (a b : V2) : Bool :=
  if a.x = b.x then decide (a.y < b.y) else decide (a.x < b.x)

/-- Fetch a bounding box by index (`bbs[(*it).second]`). -/
def bbGetD (bbs : List BoundingBox) (i : ℕ) : BoundingBox :=
  bbs.getD i ⟨⟨0, 0⟩, ⟨0, 0⟩⟩

/-- Insertion into the `std::map<IfcVector2,size_t,XYSorter>`: keys ordered by
`xyLess`, an existing equal key is overwritten (`field[key] = i`). -/
def fieldInsert (key : V2) (idx : ℕ) : List (V2 × ℕ) → List (V2 × ℕ)
  | [] => [(key, idx)]
  | e :: rest =>
    if xyLess key e.1 then (key, idx) :: e :: rest
    else if key = e.1 then (key, idx) :: rest
    else e :: fieldInsert key idx rest

/-- Build the XYSortedField of `Quadrify` (lines 1625–1631): insert each
bounding box's min corner mapped to its index. -/
def mkField (bbs : List BoundingBox) : List (V2 × ℕ) :=
  (List.range bbs.length).foldl
    (fun f i => fieldInsert (bbGetD bbs i).first i f) []

/-- The x-axis search of `QuadrifyPart` (lines 879–892): walk the sorted field
until an opening intersecting the current slab is found (returning its x-range
and the remaining field from that position), breaking early — not found — once
`bb.first.x >= pmax.x`. -/
def xScan (pmin pmax : V2) (bbs : List BoundingBox) :
    List (V2 × ℕ) → Option (ℚ × ℚ × List (V2 × ℕ))
  | [] => none
  | e :: rest =>
    if (bbGetD bbs e.2).first.x ≥ pmax.x then none
    else if (bbGetD bbs e.2).second.x > pmin.x ∧ (bbGetD bbs e.2).second.y > pmin.y ∧
            (bbGetD bbs e.2).first.y < pmax.y then
      some ((bbGetD bbs e.2).first.x, (bbGetD bbs e.2).second.x, e :: rest)
    else xScan pmin pmax bbs rest

/-- The y-axis scan of `QuadrifyPart` (lines 914–939).  The C++ loop emits the
recursive gap fills inline; since the loop's control state (`ylast`, `found`)
never depends on the output buffer, the gap rectangles are collected here in
emission order and the recursion runs over them afterwards (`runGaps`). -/
def yGaps (xs xe : ℚ) (pmin pmax : V2) (bbs : List BoundingBox) :
    List (V2 × ℕ) → ℚ → Bool → List (V2 × V2) → List (V2 × V2) × ℚ × Bool
  | [], ylast, found, gaps => (gaps, ylast, found)
  | e :: rest, ylast, found, gaps =>
    if (bbGetD bbs e.2).first.x > xs ∨ (bbGetD bbs e.2).first.y ≥ pmax.y then
      (gaps, ylast, found)
    else if (bbGetD bbs e.2).second.y > ylast then
      yGaps xs xe pmin pmax bbs rest (min (bbGetD bbs e.2).second.y pmax.y) true
        (if max (bbGetD bbs e.2).first.y pmin.y - ylast > 0 then
          gaps ++ [(⟨xs, ylast⟩, ⟨xe, max (bbGetD bbs e.2).first.y pmin.y⟩)]
        else gaps)
    else yGaps xs xe pmin pmax bbs rest ylast found gaps

/-- Run the recursive quadrify fill over the collected gap rectangles, in
order. -/
def runGaps (qp : V2 → V2 → List V2 → List V2) :
    List (V2 × V2) → List V2 → List V2
  | [], out => out
  | g :: gs, out => runGaps qp gs (qp g.1 g.2 out)

/-- Shallow embedding of `QuadrifyPart` (lines 867–956).  The C++ recursion
terminates because every recursive call shrinks the rectangle; here an
explicit fuel argument makes that termination structural (callers pass ample
fuel; fuel exhaustion returns the buffer unchanged and never occurs in the
evaluations below). -/
def QuadrifyPart (bbs : List BoundingBox) (field : List (V2 × ℕ)) :
    ℕ → V2 → V2 → List V2 → List V2
  | 0, _, _, out => out
  | fuel + 1, pmin, pmax, out =>
    if pmin.x - pmax.x = 0 ∨ pmin.y - pmax.y = 0 then out
    else
      match xScan pmin pmax bbs field with
      | none => out ++ [pmin, ⟨pmin.x, pmax.y⟩, pmax, ⟨pmax.x, pmin.y⟩]
      | some (xs0, xe0, rest) =>
        let xs := max pmin.x xs0
        let xe := min pmax.x xe0
        let out1 := if ¬ (xs - pmin.x = 0) then
            out ++ [pmin, ⟨pmin.x, pmax.y⟩, ⟨xs, pmax.y⟩, ⟨xs, pmin.y⟩]
          else out
        let r := yGaps xs xe pmin pmax bbs rest pmin.y false []
        let out2 := runGaps (fun a b o => QuadrifyPart bbs field fuel a b o) r.1 out1
        if r.2.2 = false then
          out2 ++ [⟨xs, pmin.y⟩, ⟨xs, pmax.y⟩, ⟨xe, pmax.y⟩, ⟨xe, pmin.y⟩]
        else
          let out3 := if r.2.1 < pmax.y then
              QuadrifyPart bbs field fuel ⟨xs, r.2.1⟩ ⟨xe, pmax.y⟩ out2
            else out2
          if ¬ (pmax.x - xe = 0) then QuadrifyPart bbs field fuel ⟨xe, pmin.y⟩ pmax out3
          else out3

/-- Shallow embedding of `Quadrify` over bounding boxes (lines 1617–1641):
subdivide `[0,1]²` against the opening boxes; each group of four output
points is one quad, and `vertcnt` is filled with `4`s accordingly. -/
def Quadrify (bbs : List BoundingBox) (fuel : ℕ) : TempMesh :=
  let quads := QuadrifyPart bbs (mkField bbs) fuel ⟨0, 0⟩ ⟨1, 1⟩ []
  ⟨quads.map (fun v2 => ⟨v2.x, v2.y, 0⟩), List.replicate (quads.length / 4) 4⟩

/-!
## ContourReconstruction: InsertWindowContours (IFCGeometry.cpp lines 1039–1161)
-/

/-- ProjectedWindowContour (lines 960–979): one opening contour after
projection with its bounding box; an empty contour is the "flagged invalid"
state. -/
structure ProjectedWindowContour where
  contour : List V2
  bb : BoundingBox
deriving DecidableEq, Repr

/-- The epsilon test `fabs(t) < epsilon` with `epsilon = diag/1000`
(lines 1067–1068), in exact squared form: over the reals
`|t| < √(diagSq)/1000 ↔ t² · 10⁶ < diagSq`. -/
def nearSq (t diagSq : ℚ) : Prop := t ^ 2 * 1000000 < diagSq

instance (t diagSq : ℚ) : Decidable (nearSq t diagSq) := by
  unfold nearSq
  infer_instance

/-- The vertex-emission loop between two hits (lines 1105–1118): walk `cnt+1`
contour vertices starting at `last_hit`, skipping those farther than
`0.7 · diag²` (squared) from the current edge point. -/
def emitRun (contour : List V2) (size lh cnt : ℕ) (edge : V2) (diagSq : ℚ) :
    List V2 :=
  (List.range (cnt + 1)).filterMap (fun e1 =>
    let va := contour.getD ((lh + e1) % size) ⟨0, 0⟩
    if (va.sub edge).squareLength > diagSq * (7/10) then none else some va)

/-- The synthesized corner vertex (lines 1120–1138): start from the current
edge point and snap each coordinate toward the bounding-box edge the
`last_hit` vertex lies on. -/
def cornerFor (clh : V2) (bb : BoundingBox) (edge : V2) (diagSq : ℚ) : V2 :=
  ⟨if nearSq (clh.x - bb.first.x) diagSq then bb.first.x
    else if nearSq (clh.x - bb.second.x) diagSq then bb.second.x
    else edge.x,
   if nearSq (clh.y - bb.first.y) diagSq then bb.first.y
    else if nearSq (clh.y - bb.second.y) diagSq then bb.second.y
    else edge.y⟩

/-- Outcome of one iteration of the contour-walking loop: either the loop
breaks (`n == very_first_hit`, line 1149), or it continues with updated
state. -/
inductive IwcStep where
  | brk (faces : List (List V2))
  | cont (lastHit vfh : Option ℕ) (edge : V2) (faces : List (List V2))

/-- Body of one iteration of the contour-walking loop (lines 1081–1158):
detect whether the current vertex `v` hits a bounding-box edge (updating the
persistent `edge` point componentwise), and on a hit with a previous hit
recorded, emit the face between the two hits (with corner synthesis, the
`cnt == 1` degenerate-erase, and the winding reversal of line 1147). -/
def iwcStep (contour : List V2) (bb : BoundingBox) (diagSq : ℚ) (size n : ℕ)
    (lastHit vfh : Option ℕ) (edge : V2) (faces : List (List V2)) : IwcStep :=
  let v := contour.getD n ⟨0, 0⟩
  let hx1 := nearSq (v.x - bb.first.x) diagSq
  let hx2 := nearSq (v.x - bb.second.x) diagSq
  let hy1 := nearSq (v.y - bb.first.y) diagSq
  let hy2 := nearSq (v.y - bb.second.y) diagSq
  let edge2 : V2 :=
    ⟨if hx1 then bb.first.x else if hx2 then bb.second.x else edge.x,
     if hy1 then bb.first.y else if hy2 then bb.second.y else edge.y⟩
  if hx1 ∨ hx2 ∨ hy1 ∨ hy2 then
    match lastHit with
    | some lh =>
      let cnt := if lh > n then size - (lh - n) else n - lh
      let emitted := emitRun contour size lh cnt edge2 diagSq
      let clh := contour.getD lh ⟨0, 0⟩
      let emitted2 :=
        if edge2 ≠ clh then emitted ++ [cornerFor clh bb edge2 diagSq]
        else if cnt = 1 then []
        else emitted
      let faces2 := if emitted2.length ≠ 0 then faces ++ [emitted2.reverse] else faces
      if vfh = some n then .brk faces2
      else .cont (some n) vfh edge2 faces2
    | none => .cont (some n) (some n) edge2 faces
  else .cont lastHit vfh edge2 faces

/-- The contour-walking loop (lines 1073–1159).  The C++ `for(;;)` checks
`e == size*2` at the top and then logs a topology error and breaks; here the
remaining iteration budget is the recursion fuel (callers start it at
`size*2`), and the result carries the emitted faces, whether the topology
error fired, and the number of loop-body iterations executed. -/
def iwcGo (contour : List V2) (bb : BoundingBox) (diagSq : ℚ) (size : ℕ) :
    ℕ → ℕ → Option ℕ → Option ℕ → V2 → List (List V2) →
    List (List V2) × Bool × ℕ
  | 0, _, _, _, _, faces => (faces, true, 0)
  | fuel + 1, n, lastHit, vfh, edge, faces =>
    match iwcStep contour bb diagSq size n lastHit vfh edge faces with
    | .brk faces2 => (faces2, false, 1)
    | .cont lh2 vfh2 edge2 faces2 =>
      let r := iwcGo contour bb diagSq size fuel ((n + 1) % size) lh2 vfh2 edge2 faces2
      (r.1, r.2.1, r.2.2 + 1)

/-- Processing of one projected window contour by `InsertWindowContours`
(lines 1044–1159): skip empty contours; skip 4-gons whose vertices cover the
four bounding-box corners EXACTLY (the `std::set<IfcVector2,XYSorter>` lookup
of lines 1053–1065 compares coordinates exactly); otherwise run the
contour-walking loop with an iteration budget of `2 · size`. -/
def InsertWindowContour (contour : List V2) (bb : BoundingBox) :
    List (List V2) × Bool × ℕ :=
  if contour = [] then ([], false, 0)
  else if contour.length = 4 ∧ bb.first ∈ contour ∧ bb.second ∈ contour ∧
      (⟨bb.first.x, bb.second.y⟩ : V2) ∈ contour ∧
      (⟨bb.second.x, bb.first.y⟩ : V2) ∈ contour then
    ([], false, 0)
  else
    iwcGo contour bb ((bb.first.sub bb.second).squareLength) contour.length
      (contour.length * 2) 0 none none ⟨0, 0⟩ []

/-- Shallow embedding of `InsertWindowContours`: append each contour's emitted
replacement faces (at plane coordinate `z = 0`) to the quadrified mesh. -/
def InsertWindowContours (contours : List ProjectedWindowContour)
    (curmesh : TempMesh) : TempMesh :=
  contours.foldl (fun m c =>
    let r := InsertWindowContour c.contour c.bb
    ⟨m.verts ++ r.1.flatMap (fun f => f.map (fun v2 => (⟨v2.x, v2.y, 0⟩ : V3))),
     m.vertcnt ++ r.1.map List.length⟩) curmesh

/-- The axis-aligned square window contour of the concrete scenario
(`[(0.2,0.2),(0.8,0.2),(0.8,0.8),(0.2,0.8)]`). -/
def windowSquareContour : List V2 := [⟨1/5, 1/5⟩, ⟨4/5, 1/5⟩, ⟨4/5, 4/5⟩, ⟨1/5, 4/5⟩]

/-- The bounding box of `windowSquareContour`. -/
def windowSquareBB : BoundingBox := ⟨⟨1/5, 1/5⟩, ⟨4/5, 4/5⟩⟩

/-- C2 counterexample: for the single square opening
`[(0.2,0.2),(0.8,0.2),(0.8,0.8),(0.2,0.8)]` the quadrify subdivision of the
unit square followed by contour insertion (a no-op here — perfect fit)
produces 4 quads, not the claimed 8. -/
theorem C2_window_counterexample :
    (InsertWindowContours [⟨windowSquareContour, windowSquareBB⟩]
        (Quadrify [windowSquareBB] 100)).vertcnt.length = 4 ∧
    (InsertWindowContours [⟨windowSquareContour, windowSquareBB⟩]
        (Quadrify [windowSquareBB] 100)).vertcnt.length ≠ 8 := by
  with_unfolding_all decide

/-- C2 amended: the square opening decomposes the unit face into exactly
4 quads — a full-height left strip, the strips below and above the hole, and
a full-height right strip; contour insertion leaves the quad hole untouched
(the contour is its own bounding box), and no vertex is emitted inside the
open hole `(0.2,0.8)²`. -/
theorem C2_window_quadrify_amended :
    Quadrify [windowSquareBB] 100 =
      ⟨[⟨0, 0, 0⟩, ⟨0, 1, 0⟩, ⟨1/5, 1, 0⟩, ⟨1/5, 0, 0⟩,
        ⟨1/5, 0, 0⟩, ⟨1/5, 1/5, 0⟩, ⟨4/5, 1/5, 0⟩, ⟨4/5, 0, 0⟩,
        ⟨1/5, 4/5, 0⟩, ⟨1/5, 1, 0⟩, ⟨4/5, 1, 0⟩, ⟨4/5, 4/5, 0⟩,
        ⟨4/5, 0, 0⟩, ⟨4/5, 1, 0⟩, ⟨1, 1, 0⟩, ⟨1, 0, 0⟩], [4, 4, 4, 4]⟩ ∧
    InsertWindowContours [⟨windowSquareContour, windowSquareBB⟩]
        (Quadrify [windowSquareBB] 100) = Quadrify [windowSquareBB] 100 ∧
    (∀ v ∈ (Quadrify [windowSquareBB] 100).verts,
      v.x ≤ 1/5 ∨ 4/5 ≤ v.x ∨ v.y ≤ 1/5 ∨ 4/5 ≤ v.y) := by
  with_unfolding_all decide

/-- C5 amended: `InsertWindowContours` leaves the quad hole untouched exactly
when the contour is a 4-gon whose vertices cover the four bounding-box
corners with EXACT coordinate equality (the `std::set` lookup with `XYSorter`
compares exactly; the tolerance `ε = diag/1000` plays no role in this skip —
it is only used for edge-hit detection inside the reconstruction walk). -/
theorem C5_perfect_fit_amended (contour : List V2) (bb : BoundingBox) (m : TempMesh)
    (h4 : contour.length = 4)
    (hc1 : bb.first ∈ contour) (hc2 : bb.second ∈ contour)
    (hc3 : (⟨bb.first.x, bb.second.y⟩ : V2) ∈ contour)
    (hc4 : (⟨bb.second.x, bb.first.y⟩ : V2) ∈ contour) :
    InsertWindowContour contour bb = ([], false, 0) ∧
    InsertWindowContours [⟨contour, bb⟩] m = m := by
  have hne : contour ≠ [] := by
    intro h
    rw [h] at h4
    simp at h4
  have hskip : InsertWindowContour contour bb = ([], false, 0) := by
    unfold InsertWindowContour
    rw [if_neg hne, if_pos ⟨h4, hc1, hc2, hc3, hc4⟩]
  refine ⟨hskip, ?_⟩
  unfold InsertWindowContours
  cases m
  simp [hskip]

/-- Witness: the perfect-fit square window is skipped and the quadrified mesh
is preserved. -/
theorem C5_perfect_fit_amended_witness :
    InsertWindowContour windowSquareContour windowSquareBB = ([], false, 0) ∧
    InsertWindowContours [⟨windowSquareContour, windowSquareBB⟩] TempMesh.empty
      = TempMesh.empty :=
  C5_perfect_fit_amended windowSquareContour windowSquareBB TempMesh.empty
    (by with_unfolding_all decide) (by with_unfolding_all decide)
    (by with_unfolding_all decide) (by with_unfolding_all decide)
    (by with_unfolding_all decide)

/-- A 4-gon whose vertices lie within `ε = diag/1000` of the four corners of
its bounding box `((0,0),(3/5,4/5))` (diagonal 1) — but not exactly on them:
the first vertex is displaced by `10⁻⁴`. -/
def c5NearContour : List V2 := [⟨1/10000, 0⟩, ⟨3/5, 0⟩, ⟨3/5, 4/5⟩, ⟨0, 4/5⟩]

/-- The bounding box of `c5NearContour`. -/
def c5NearBB : BoundingBox := ⟨⟨0, 0⟩, ⟨3/5, 4/5⟩⟩

/-- C5 counterexample: this contour is a 4-gon whose vertices coincide with
the four corners of its bounding box within `ε = diag/1000` (each squared
distance times 10⁶ is below `diag² = 1`), yet `InsertWindowContours` does NOT
leave the hole untouched — the reconstruction walk emits four replacement
faces. -/
theorem C5_near_fit_counterexample :
    c5NearContour.length = 4 ∧
    ((⟨1/10000, 0⟩ : V2).sub ⟨0, 0⟩).squareLength * 1000000 < 1 ∧
    ((⟨3/5, 0⟩ : V2).sub ⟨3/5, 0⟩).squareLength * 1000000 < 1 ∧
    ((⟨3/5, 4/5⟩ : V2).sub ⟨3/5, 4/5⟩).squareLength * 1000000 < 1 ∧
    ((⟨0, 4/5⟩ : V2).sub ⟨0, 4/5⟩).squareLength * 1000000 < 1 ∧
    (InsertWindowContours [⟨c5NearContour, c5NearBB⟩] TempMesh.empty).vertcnt
      = [3, 3, 3, 3] ∧
    InsertWindowContours [⟨c5NearContour, c5NearBB⟩] TempMesh.empty
      ≠ TempMesh.empty := by
  with_unfolding_all decide

/-- The walking loop consumes one unit of fuel per executed iteration; it
reports the topology-error overrun exactly when the budget is exhausted. -/
lemma iwcGo_used_le (contour : List V2) (bb : BoundingBox) (diagSq : ℚ)
    (size : ℕ) (fuel : ℕ) :
    ∀ n lastHit vfh edge faces,
      (iwcGo contour bb diagSq size fuel n lastHit vfh edge faces).2.2 ≤ fuel ∧
      ((iwcGo contour bb diagSq size fuel n lastHit vfh edge faces).2.1 = true →
        (iwcGo contour bb diagSq size fuel n lastHit vfh edge faces).2.2 = fuel) := by
  induction fuel with
  | zero =>
    intro n lh vfh e f
    simp [iwcGo]
  | succ k ih =>
    intro n lh vfh e f
    unfold iwcGo
    split
    · simp
    · rename_i lh2 vfh2 e2 f2 heq
      obtain ⟨h1, h2⟩ := ih ((n + 1) % size) lh2 vfh2 e2 f2
      dsimp only
      refine ⟨by omega, fun hb => ?_⟩
      have := h2 hb
      omega

/-- C9: the contour-walking loop of `InsertWindowContours` terminates on every
input contour, executing at most `2 · |contour|` loop-body iterations; when it
reaches that bound (instead of closing the contour) the topology-error branch
fires and the loop breaks out. -/
theorem C9_iwc_iteration_bound (contour : List V2) (bb : BoundingBox) :
    (InsertWindowContour contour bb).2.2 ≤ 2 * contour.length ∧
    ((InsertWindowContour contour bb).2.1 = true →
      (InsertWindowContour contour bb).2.2 = 2 * contour.length) := by
  unfold InsertWindowContour
  split
  · simp
  · split
    · simp
    · obtain ⟨h1, h2⟩ := iwcGo_used_le contour bb
        ((bb.first.sub bb.second).squareLength) contour.length
        (contour.length * 2) 0 none none ⟨0, 0⟩ []
      refine ⟨by omega, fun hb => ?_⟩
      have := h2 hb
      omega

/-- Witness: a contour with no vertex near any bounding-box edge never hits,
so the loop overruns; the bound is attained and the topology error fires. -/
theorem C9_iwc_iteration_bound_witness :
    (InsertWindowContour [⟨1/2, 1/2⟩] ⟨⟨0, 0⟩, ⟨1, 1⟩⟩).2.2
      = 2 * ([(⟨1/2, 1/2⟩ : V2)] : List V2).length :=
  (C9_iwc_iteration_bound [⟨1/2, 1/2⟩] ⟨⟨0, 0⟩, ⟨1, 1⟩⟩).2
    (by with_unfolding_all decide)

/-!
## FixedPointBridge, OpeningIndex and GenerateOpenings
   (IFCGeometry.cpp lines 60–67, 983–1036, 1164–1278, 1719–1947)
-/

/-- The fixed-point scaling constant `max_ulong64 = 1518500249` (line 62). -/
def max_ulong64 : ℤ := 1518500249

/-- Embedding of the `to_int64` macro (line 65): scale and cast to integer
(the C++ float-to-integer cast truncates toward zero; inputs are normalized
to `[0,1]`, so this is a floor). -/
def to_int64 (p : ℚ) : ℤ := ⌊p * (max_ulong64 : ℚ)⌋

/-- Embedding of the `from_int64` macro (line 66). -/
def from_int64 (i : ℤ) : ℚ := (i : ℚ) / (max_ulong64 : ℚ)

/-- IsDuplicateVertex (lines 992–1001): a candidate vertex is a duplicate if
some existing contour vertex is within squared distance `1e-5`. -/
def IsDuplicateVertex (vv : V2) (temp_contour : List V2) : Bool :=
  temp_contour.any (fun cp => decide ((cp.sub vv).squareLength < 1/100000))

/-- ExtractVerticesFromClipper (lines 1004–1017): convert fixed-point points
back to floats, sanity-clamp into `[0,1]²`, optionally dropping duplicates. -/
def ExtractVerticesFromClipper (poly : List (ℤ × ℤ)) (filter_duplicates : Bool) :
    List V2 :=
  poly.foldl (fun tc pt =>
    let vv := V2.min2 (V2.max2 ⟨from_int64 pt.1, from_int64 pt.2⟩ ⟨0, 0⟩) ⟨1, 1⟩
    if !filter_duplicates || !IsDuplicateVertex vv tc then tc ++ [vv] else tc) []

/-- GetBoundingBox (lines 1020–1036): bounding box of a clipper polygon after
conversion and clamping, folded from the `MinMaxChooser` seeds. -/
def GetBoundingBox (poly : List (ℤ × ℤ)) : BoundingBox :=
  let pts := poly.map (fun pt =>
    V2.min2 (V2.max2 ⟨from_int64 pt.1, from_int64 pt.2⟩ ⟨0, 0⟩) ⟨1, 1⟩)
  ⟨pts.foldl V2.min2 v2Inf, pts.foldl V2.max2 v2NegInf⟩

/-- BoundingBoxesOverlapping (lines 984–989): strict overlap — the `=` case
counts as non-overlapping (merely adjacent). -/
def BoundingBoxesOverlapping (ibb bb : BoundingBox) : Prop :=
  ibb.first.x < bb.second.x ∧ ibb.second.x > bb.first.x ∧
  ibb.first.y < bb.second.y ∧ ibb.second.y > bb.first.y

instance (ibb bb : BoundingBox) : Decidable (BoundingBoxesOverlapping ibb bb) := by
  unfold BoundingBoxesOverlapping
  infer_instance

/-- The polygon-boolean engine interface (spec §4.4): ClipperLib is an
external contrib library, so its three operations used by the opening
pipeline appear as function parameters.  Modelled from the spec: each result
entry is the OUTER contour (fixed-point points) of one ExPolygon of the
engine's output — the modelled code paths read only `.outer`.
`mergeWC a b` stands for `MergeWindowContours(a, b, out)` (polygon union,
lines 1164–1194); `disjunctWC a b` for `MakeDisjunctWindowContours(a, b, out)`
(`b \ a`, lines 1198–1228); `selfUnion a` for the single-subject union of
`CleanupWindowContour` (lines 1236–1245). -/
structure ClipperOps where
  mergeWC : List V2 → List V2 → List (List (ℤ × ℤ))
  disjunctWC : List V2 → List V2 → List (List (ℤ × ℤ))
  selfUnion : List V2 → List (List (ℤ × ℤ))

/-- Default (invalid) projected window contour, for positional `getD`
accesses. -/
def pwcDflt : ProjectedWindowContour := ⟨[], ⟨⟨0, 0⟩, ⟨0, 0⟩⟩⟩

/-- CleanupWindowContour (lines 1231–1263): run the contour through a union
with itself.  If the result is empty, log and flag the contour invalid
(clearing the vertex list, keeping the slot and bounding box).  If it has
more than one piece, only log — and in every non-empty case the extracted
first piece goes into a local `scratch` vector that is dropped on return, so
the contour is left unchanged.  Returns the updated contour and the log
messages emitted. -/
def CleanupWindowContour (ops : ClipperOps) (window : ProjectedWindowContour) :
    ProjectedWindowContour × List String :=
  if (ops.selfUnion window.contour).length ≠ 1 then
    if (ops.selfUnion window.contour).length = 0 then
      (⟨[], window.bb⟩,
       ["error during polygon clipping, window contour is degenerate"])
    else
      (window, ["error during polygon clipping, window contour is not convex"])
  else (window, [])

/-- CleanupWindowContours (lines 1266–1278): clean every contour in place —
each slot is replaced by its cleaned value, so positional indices stay
stable. -/
def CleanupWindowContours (ops : ClipperOps)
    (contours : List ProjectedWindowContour) :
    List ProjectedWindowContour × List String :=
  (contours.map (fun w => (CleanupWindowContour ops w).1),
   contours.flatMap (fun w => (CleanupWindowContour ops w).2))

/-- Result of the overlap-resolution scan (the inner `for` over accepted
contours, lines 1829–1892): either the face escapes to the Poly2Tri fallback
(`return TryAddOpenings_Poly2Tri(...)`, line 1859), or the loop exits with
the updated candidate contour and bookkeeping (`tc = []` encodes the
duplicate-opening `break` with cleared contour), or the fuel ran out (never
with ample fuel; the C++ loop terminates because every merge shortens the
contour list). -/
inductive ScanRes where
  | fallback
  | fuelOut
  | scanOut (tc : List V2) (bb : BoundingBox) (joined : List ℕ)
      (contours : List ProjectedWindowContour) (c2o : List (List ℕ))
      (logs : List String)
deriving DecidableEq, Repr

/-- The overlap-resolution scan (lines 1829–1892), iterating `idx` over the
accepted contours.  On overlap: first try `new \ old` (`disjunctWC`) — if it
is a single polygon whose box no longer overlaps, shrink the candidate and
re-test the same slot (the C++ `continue` skips `++it`).  Otherwise union
(`mergeWC`): more than one piece escapes to the fallback; zero pieces drops
the candidate as a duplicate (with a warning); exactly one piece becomes the
new candidate — bounding boxes are unioned componentwise, the originating
lists are concatenated (when tracked), the old contour is erased and the
scan restarts from the beginning. -/
def scanOpenings (ops : ClipperOps) (gcg : Bool) :
    ℕ → List V2 → BoundingBox → List ℕ → List ProjectedWindowContour →
    List (List ℕ) → List String → ℕ → ScanRes
  | 0, _, _, _, _, _, _, _ => .fuelOut
  | fuel + 1, tc, bb, joined, contours, c2o, logs, idx =>
    if idx < contours.length then
      if BoundingBoxesOverlapping (contours.getD idx pwcDflt).bb bb then
        if (ops.disjunctWC (contours.getD idx pwcDflt).contour tc).length = 1 ∧
            ¬ BoundingBoxesOverlapping (contours.getD idx pwcDflt).bb
              (GetBoundingBox
                ((ops.disjunctWC (contours.getD idx pwcDflt).contour tc).headD [])) then
          scanOpenings ops gcg fuel
            (ExtractVerticesFromClipper
              ((ops.disjunctWC (contours.getD idx pwcDflt).contour tc).headD []) false)
            (GetBoundingBox
              ((ops.disjunctWC (contours.getD idx pwcDflt).contour tc).headD []))
            joined contours c2o logs idx
        else if (ops.mergeWC tc (contours.getD idx pwcDflt).contour).length > 1 then
          .fallback
        else if (ops.mergeWC tc (contours.getD idx pwcDflt).contour).length = 0 then
          .scanOut [] bb joined contours c2o (logs ++ ["ignoring duplicate opening"])
        else
          scanOpenings ops gcg fuel
            (ExtractVerticesFromClipper
              ((ops.mergeWC tc (contours.getD idx pwcDflt).contour).headD []) true)
            ⟨V2.min2 bb.first (contours.getD idx pwcDflt).bb.first,
             V2.max2 bb.second (contours.getD idx pwcDflt).bb.second⟩
            (if gcg then joined ++ c2o.getD idx [] else joined)
            (contours.eraseIdx idx)
            (if gcg then c2o.eraseIdx idx else c2o)
            (logs ++ ["merging overlapping openings"])
            0
      else scanOpenings ops gcg fuel tc bb joined contours c2o logs (idx + 1)
    else .scanOut tc bb joined contours c2o logs

/-- TempOpening's profile mesh, the only part of the record the per-opening
projection loop reads (`extrusionDir` and `wallPoints` feed the reveal stage,
which is outside the modelled scope). -/
structure TempOpening where
  profileVerts : List V3
  profileVertcnt : List ℕ
deriving DecidableEq, Repr

/-- Accumulator of the per-opening projection loop (lines 1761–1807):
plane-distance extremes, projected bounding box and the deduplicated
projected contour. -/
structure OpAcc where
  dmin : ℚ
  dmax : ℚ
  vpmin : V2
  vpmax : V2
  tc : List V2
deriving DecidableEq, Repr

/-- Per-vertex body of the projection loop (lines 1784–1806): track plane
distances when `check_intersection` is set, project, sanity-clamp to
`[0,1]²`, extend the box and append unless duplicate. -/
def openingVertStep (mmap : V3 → V3) (nor : V3) (ci : Bool)
    (acc : OpAcc) (x : V3) : OpAcc :=
  let acc1 := if ci then
      { acc with dmin := min acc.dmin (-(x.dot nor)),
                 dmax := max acc.dmax (-(x.dot nor)) }
    else acc
  let v := mmap x
  let vv := V2.min2 (V2.max2 ⟨v.x, v.y⟩ ⟨0, 0⟩) ⟨1, 1⟩
  let acc2 := { acc1 with vpmin := V2.min2 acc1.vpmin vv,
                          vpmax := V2.max2 acc1.vpmax vv }
  if ¬ IsDuplicateVertex vv acc2.tc then { acc2 with tc := acc2.tc ++ [vv] }
  else acc2

/-- The per-face projection loop (lines 1774–1807): skip faces whose normal is
nearly parallel to the wall.  The C++ test is
`abs(nor · face_nor) < 0.5` with `face_nor` normalized; in exact squared form
(valid also for a zero cross product, where the C++ NaN comparison is false):
`4 (nor·f)² < |f|²`.  The cross product reads the FLAT vertex list at offsets
`vi_total`, `vi_total+1`, `vi_total+2` exactly as the source does. -/
def openingFacesGo (mmap : V3 → V3) (nor : V3) (ci : Bool) (pverts : List V3) :
    List ℕ → ℕ → OpAcc → OpAcc
  | [], _, acc => acc
  | c :: cs, vi_total, acc =>
    let v0 := pverts.getD vi_total ⟨0, 0, 0⟩
    let face_nor := ((pverts.getD (vi_total + 2) ⟨0, 0, 0⟩).sub v0).cross
      ((pverts.getD (vi_total + 1) ⟨0, 0, 0⟩).sub v0)
    if 4 * (nor.dot face_nor) ^ 2 < face_nor.squareLength then
      openingFacesGo mmap nor ci pverts cs (vi_total + c) acc
    else
      openingFacesGo mmap nor ci pverts cs (vi_total + c)
        (((pverts.drop vi_total).take c).foldl (openingVertStep mmap nor ci) acc)

/-- State accumulated across the opening loop of `GenerateOpenings`. -/
structure GenState where
  contours : List ProjectedWindowContour
  c2o : List (List ℕ)
  logs : List String
deriving DecidableEq, Repr

/-- Result of processing one opening (or the whole opening list). -/
inductive GenStepRes where
  | fallback
  | fuelOut
  | st (s : GenState)
deriving DecidableEq, Repr

/-- Processing of one opening candidate (lines 1754–1903): skip profiles with
at most 2 vertices, project and deduplicate, skip contours with at most 2
surviving vertices, apply the intersection check
(`ε = 0.01·|dmax−dmin|`, lines 1813–1817), apply the bounding-box area gate
(`area < 1e-5`, lines 1821–1825 — a bare `continue`, NO log message), resolve
overlaps, and accept the surviving contour. -/
def processOpening (ops : ClipperOps) (mmap : V3 → V3) (nor : V3) (base_d : ℚ)
    (ci gcg : Bool) (fuel : ℕ) (s : GenState) (openingIdx : ℕ)
    (op : TempOpening) : GenStepRes :=
  if op.profileVerts.length ≤ 2 then .st s
  else
    let acc := openingFacesGo mmap nor ci op.profileVerts op.profileVertcnt 0
      ⟨qInf, -qInf, v2Inf, v2NegInf, []⟩
    if acc.tc.length ≤ 2 then .st s
    else if ci ∧ (base_d < acc.dmin - |acc.dmax - acc.dmin| * (1/100) ∨
                  base_d > acc.dmax + |acc.dmax - acc.dmin| * (1/100)) then .st s
    else if |acc.vpmax.x - acc.vpmin.x| * |acc.vpmax.y - acc.vpmin.y| < 1/100000 then
      .st s
    else
      match scanOpenings ops gcg fuel acc.tc ⟨acc.vpmin, acc.vpmax⟩ [openingIdx]
          s.contours s.c2o s.logs 0 with
      | .fallback => .fallback
      | .fuelOut => .fuelOut
      | .scanOut tc bb joined contours c2o logs =>
        if tc ≠ [] then
          .st ⟨contours ++ [⟨tc, bb⟩],
               (if gcg then c2o ++ [joined] else c2o), logs⟩
        else .st ⟨contours, c2o, logs⟩

/-- The opening loop of `GenerateOpenings` (lines 1754–1903), indexing
openings in order. -/
def openingsLoop (ops : ClipperOps) (mmap : V3 → V3) (nor : V3) (base_d : ℚ)
    (ci gcg : Bool) (fuel : ℕ) : List TempOpening → ℕ → GenState → GenStepRes
  | [], _, s => .st s
  | op :: rest, i, s =>
    match processOpening ops mmap nor base_d ci gcg fuel s i op with
    | .fallback => .fallback
    | .fuelOut => .fuelOut
    | .st s2 => openingsLoop ops mmap nor base_d ci gcg fuel rest (i + 1) s2

/-- Result of `GenerateOpenings`: the Poly2Tri fallback escape, fuel
exhaustion (modelling artifact, never hit with ample fuel), or the boolean
result with the final mesh and the log messages emitted. -/
inductive GenResult where
  | fallbackRes
  | fuelOut
  | res (ok : Bool) (curmesh : TempMesh) (logs : List String)
deriving DecidableEq, Repr

/-- Shallow embedding of `GenerateOpenings` (lines 1720–1947).  The plane
setup (`ProjectOntoPlane`, square roots) is abstracted into the projection
`mmap`, its normal row `nor` and offset `base_d`.  After the opening loop, if
NO contour survived, the function returns `false` with the face mesh exactly
as passed in (`curmesh.Clear()` at line 1912 happens only after this check).
Otherwise the face is quadrified against the contour boxes, the contours are
cleaned up and the true contours are inserted.  The remaining stages —
outer-contour clip (§4.9), unprojection and reveal generation (§4.10) — are
outside the scope of the claims settled here and are not modelled. -/
def GenerateOpenings (ops : ClipperOps) (mmap : V3 → V3) (nor : V3)
    (base_d : ℚ) (openings : List TempOpening) (ci gcg : Bool) (fuel : ℕ)
    (curmesh : TempMesh) : GenResult :=
  match openingsLoop ops mmap nor base_d ci gcg fuel openings 0 ⟨[], [], []⟩ with
  | .fallback => .fallbackRes
  | .fuelOut => .fuelOut
  | .st s =>
    if s.contours.length = 0 then .res false curmesh s.logs
    else
      let curmesh1 := Quadrify (s.contours.map (fun c => c.bb)) fuel
      let cleaned := CleanupWindowContours ops s.contours
      let curmesh2 := InsertWindowContours cleaned.1 curmesh1
      .res true curmesh2 (s.logs ++ cleaned.2)

/-- Clipper-operation instantiation whose every engine call returns no
polygons — used to drive the modelled control flow at concrete inputs. -/
def nullOps : ClipperOps := ⟨fun _ _ => [], fun _ _ => [], fun _ => []⟩

/-- C10: `BoundingBoxesOverlapping` is symmetric; boxes that merely touch
(one box's max coordinate equals the other's min on some axis) are reported
as non-overlapping; consequently the overlap-resolution scan never merges a
contour whose box only touches the candidate box — it steps past it
unchanged. -/
theorem C10_bb_overlapping_symm_touching (a b : BoundingBox) :
    (BoundingBoxesOverlapping a b ↔ BoundingBoxesOverlapping b a) ∧
    (a.second.x = b.first.x ∨ a.second.y = b.first.y ∨
      b.second.x = a.first.x ∨ b.second.y = a.first.y →
      ¬ BoundingBoxesOverlapping a b) ∧
    (∀ (ops : ClipperOps) (gcg : Bool) (fuel : ℕ) (tc : List V2)
        (joined : List ℕ) (contours : List ProjectedWindowContour)
        (c2o : List (List ℕ)) (logs : List String) (idx : ℕ),
      idx < contours.length →
      ¬ BoundingBoxesOverlapping (contours.getD idx pwcDflt).bb b →
      scanOpenings ops gcg (fuel + 1) tc b joined contours c2o logs idx
        = scanOpenings ops gcg fuel tc b joined contours c2o logs (idx + 1)) := by
  refine ⟨?_, ?_, ?_⟩
  · unfold BoundingBoxesOverlapping
    constructor <;> rintro ⟨h1, h2, h3, h4⟩ <;> exact ⟨h2, h1, h4, h3⟩
  · rintro (h | h | h | h) ⟨h1, h2, h3, h4⟩ <;> rw [gt_iff_lt] at h2 h4 <;> linarith
  · intro ops gcg fuel tc joined contours c2o logs idx hidx hov
    simp only [scanOpenings]
    rw [if_pos hidx, if_neg hov]

/-- Witness: the two unit-height boxes sharing the edge `x = 1/2` are
non-overlapping. -/
theorem C10_bb_overlapping_symm_touching_witness :
    ¬ BoundingBoxesOverlapping ⟨⟨0, 0⟩, ⟨1/2, 1⟩⟩ ⟨⟨1/2, 0⟩, ⟨1, 1⟩⟩ :=
  (C10_bb_overlapping_symm_touching ⟨⟨0, 0⟩, ⟨1/2, 1⟩⟩ ⟨⟨1/2, 0⟩, ⟨1, 1⟩⟩).2.1
    (Or.inl rfl)

/-- C1: in the overlap-resolution scan, when the contour at `idx` overlaps the
candidate box and the subtraction path does not apply, the union decides:
zero polygons — the candidate is dropped as a duplicate (contours unchanged);
more than one polygon — the whole face escapes to the Poly2Tri fallback
(whose result `GenerateOpenings` returns); exactly one polygon — it becomes
the new candidate, the boxes are unioned componentwise, the originating
lists are concatenated (when `generate_connection_geometry` tracks them), the
old contour is erased and the scan restarts from index 0. -/
theorem C1_overlap_union_resolution (ops : ClipperOps) (gcg : Bool) (fuel : ℕ)
    (tc : List V2) (bb : BoundingBox) (joined : List ℕ)
    (contours : List ProjectedWindowContour) (c2o : List (List ℕ))
    (logs : List String) (idx : ℕ)
    (hidx : idx < contours.length)
    (hov : BoundingBoxesOverlapping (contours.getD idx pwcDflt).bb bb)
    (hnoshrink : ¬ ((ops.disjunctWC (contours.getD idx pwcDflt).contour tc).length = 1 ∧
      ¬ BoundingBoxesOverlapping (contours.getD idx pwcDflt).bb
        (GetBoundingBox
          ((ops.disjunctWC (contours.getD idx pwcDflt).contour tc).headD [])))) :
    ((ops.mergeWC tc (contours.getD idx pwcDflt).contour).length = 0 →
      scanOpenings ops gcg (fuel + 1) tc bb joined contours c2o logs idx
        = .scanOut [] bb joined contours c2o
            (logs ++ ["ignoring duplicate opening"])) ∧
    ((ops.mergeWC tc (contours.getD idx pwcDflt).contour).length > 1 →
      scanOpenings ops gcg (fuel + 1) tc bb joined contours c2o logs idx
        = .fallback) ∧
    ((ops.mergeWC tc (contours.getD idx pwcDflt).contour).length = 1 →
      scanOpenings ops gcg (fuel + 1) tc bb joined contours c2o logs idx
        = scanOpenings ops gcg fuel
            (ExtractVerticesFromClipper
              ((ops.mergeWC tc (contours.getD idx pwcDflt).contour).headD []) true)
            ⟨V2.min2 bb.first (contours.getD idx pwcDflt).bb.first,
             V2.max2 bb.second (contours.getD idx pwcDflt).bb.second⟩
            (if gcg then joined ++ c2o.getD idx [] else joined)
            (contours.eraseIdx idx)
            (if gcg then c2o.eraseIdx idx else c2o)
            (logs ++ ["merging overlapping openings"])
            0) ∧
    (∀ (mmap : V3 → V3) (nor : V3) (base_d : ℚ) (openings : List TempOpening)
        (ci : Bool) (curmesh : TempMesh),
      openingsLoop ops mmap nor base_d ci gcg fuel openings 0 ⟨[], [], []⟩
          = .fallback →
      GenerateOpenings ops mmap nor base_d openings ci gcg fuel curmesh
        = .fallbackRes) := by
  refine ⟨?_, ?_, ?_, ?_⟩
  · intro h0
    simp only [scanOpenings]
    rw [if_pos hidx, if_pos hov, if_neg hnoshrink, if_neg (by omega), if_pos h0]
  · intro h2
    simp only [scanOpenings]
    rw [if_pos hidx, if_pos hov, if_neg hnoshrink, if_pos h2]
  · intro h1
    simp only [scanOpenings]
    rw [if_pos hidx, if_pos hov, if_neg hnoshrink, if_neg (by omega),
      if_neg (by omega)]
  · intro mmap nor base_d openings ci curmesh hloop
    unfold GenerateOpenings
    rw [hloop]

/-- Witness: with an engine whose union of the overlapping contours is empty,
the candidate is dropped as a duplicate and the accepted contour list is
unchanged. -/
theorem C1_overlap_union_resolution_witness :
    scanOpenings nullOps true 3 [⟨1/2, 1/2⟩] ⟨⟨0, 0⟩, ⟨1, 1⟩⟩ [1]
        [⟨[⟨0, 0⟩], ⟨⟨0, 0⟩, ⟨1, 1⟩⟩⟩] [[0]] [] 0
      = .scanOut [] ⟨⟨0, 0⟩, ⟨1, 1⟩⟩ [1] [⟨[⟨0, 0⟩], ⟨⟨0, 0⟩, ⟨1, 1⟩⟩⟩] [[0]]
          ["ignoring duplicate opening"] :=
  (C1_overlap_union_resolution nullOps true 2 [⟨1/2, 1/2⟩] ⟨⟨0, 0⟩, ⟨1, 1⟩⟩ [1]
      [⟨[⟨0, 0⟩], ⟨⟨0, 0⟩, ⟨1, 1⟩⟩⟩] [[0]] [] 0
      (by decide) (by with_unfolding_all decide)
      (by with_unfolding_all decide)).1 rfl

/-- C6 counterexample: with an engine whose self-union of the contour yields
TWO pieces, `CleanupWindowContour` does NOT flag the contour invalid — it
logs an error, extracts the first piece into a scratch buffer that is
discarded, and keeps the contour unchanged. -/
theorem C6_cleanup_counterexample :
    (CleanupWindowContour
        ⟨fun _ _ => [], fun _ _ => [], fun _ => [[(0, 0)], [(1, 1)]]⟩
        ⟨[⟨1/2, 1/2⟩, ⟨1, 1/2⟩, ⟨3/4, 1⟩], ⟨⟨1/2, 1/2⟩, ⟨1, 1⟩⟩⟩).1.contour
      = [⟨1/2, 1/2⟩, ⟨1, 1/2⟩, ⟨3/4, 1⟩] ∧
    (CleanupWindowContour
        ⟨fun _ _ => [], fun _ _ => [], fun _ => [[(0, 0)], [(1, 1)]]⟩
        ⟨[⟨1/2, 1/2⟩, ⟨1, 1/2⟩, ⟨3/4, 1⟩], ⟨⟨1/2, 1/2⟩, ⟨1, 1⟩⟩⟩).1.contour
      ≠ [] := by
  with_unfolding_all decide

/-- C6 amended: the cleanup pass keeps every slot (the list length is
preserved, so positional indices stay stable); a contour whose self-union is
EMPTY is flagged invalid — emptied with its bounding box kept; a contour
whose self-union is non-empty (one piece or several) is left unchanged (the
multi-piece case only logs an error). -/
theorem C6_cleanup_amended (ops : ClipperOps)
    (contours : List ProjectedWindowContour) :
    (CleanupWindowContours ops contours).1.length = contours.length ∧
    ∀ i, i < contours.length →
      (((ops.selfUnion (contours.getD i pwcDflt).contour).length = 0 →
        ((CleanupWindowContours ops contours).1.getD i pwcDflt).contour = [] ∧
        ((CleanupWindowContours ops contours).1.getD i pwcDflt).bb
          = (contours.getD i pwcDflt).bb) ∧
      ((ops.selfUnion (contours.getD i pwcDflt).contour).length ≠ 0 →
        (CleanupWindowContours ops contours).1.getD i pwcDflt
          = contours.getD i pwcDflt)) := by
  constructor
  · simp [CleanupWindowContours]
  · intro i hi
    have hlen : i < (contours.map (fun w => (CleanupWindowContour ops w).1)).length := by
      simpa using hi
    have hgd : (CleanupWindowContours ops contours).1.getD i pwcDflt
        = (CleanupWindowContour ops (contours.getD i pwcDflt)).1 := by
      unfold CleanupWindowContours
      rw [List.getD_eq_getElem _ _ hlen, List.getElem_map,
        List.getD_eq_getElem _ _ hi]
    rw [hgd]
    unfold CleanupWindowContour
    constructor
    · intro h0
      rw [if_pos (by omega), if_pos h0]
      exact ⟨rfl, rfl⟩
    · intro hne
      by_cases h1 : (ops.selfUnion (contours.getD i pwcDflt).contour).length = 1
      · rw [if_neg (by omega)]
      · rw [if_pos (by omega), if_neg hne]

/-- Witness: with an engine returning the empty union, the single slot is
kept and its contour is flagged (emptied). -/
theorem C6_cleanup_amended_witness :
    (CleanupWindowContours nullOps [⟨[⟨1/2, 1/2⟩], ⟨⟨0, 0⟩, ⟨1, 1⟩⟩⟩]).1.length = 1 ∧
    ((CleanupWindowContours nullOps
        [⟨[⟨1/2, 1/2⟩], ⟨⟨0, 0⟩, ⟨1, 1⟩⟩⟩]).1.getD 0 pwcDflt).contour = [] := by
  have h := C6_cleanup_amended nullOps [⟨[⟨1/2, 1/2⟩], ⟨⟨0, 0⟩, ⟨1, 1⟩⟩⟩]
  exact ⟨h.1, ((h.2 0 (by decide)).1 rfl).1⟩

/-- The opening of the degenerate-opening scenario: a sliver whose projected
bounding box has area `9·10⁻⁶ < 10⁻⁵` but whose three projected vertices are
pairwise far enough apart to survive duplicate filtering. -/
def tinyOpening : TempOpening :=
  ⟨[⟨0, 0, 0⟩, ⟨1, 0, 0⟩, ⟨1/2, 9/1000000, 0⟩], [3]⟩

/-- A non-trivial face mesh used to observe that the mesh passes through
unchanged. -/
def testMesh : TempMesh := ⟨[⟨5, 6, 7⟩, ⟨8, 9, 10⟩, ⟨11, 12, 13⟩], [3]⟩

/-- C4 counterexample: the degenerate opening is skipped by the bounding-box
area gate and `GenerateOpenings` returns `false` with the mesh untouched —
but the emitted log trace is EMPTY: no warning is logged for the degenerate
input (the gate at lines 1821–1825 is a bare `continue`). -/
theorem C4_degenerate_warning_counterexample :
    GenerateOpenings nullOps id ⟨0, 0, 1⟩ 0 [tinyOpening] false true 10 testMesh
      = GenResult.res false testMesh ([] : List String) := by
  with_unfolding_all decide

/-- C4 amended: an opening whose projected bounding box has area below `10⁻⁵`
is skipped (silently — no log message is emitted by the gate), and when no
opening contour at all survives the filtering stages, `GenerateOpenings`
returns `false` and leaves the face mesh exactly as passed in, identical to
the zero-opening case. -/
theorem C4_area_gate_amended (ops : ClipperOps) (mmap : V3 → V3) (nor : V3)
    (base_d : ℚ) (ci gcg : Bool) (fuel : ℕ) (s : GenState) (i : ℕ)
    (op : TempOpening) (acc : OpAcc)
    (hacc : openingFacesGo mmap nor ci op.profileVerts op.profileVertcnt 0
      ⟨qInf, -qInf, v2Inf, v2NegInf, []⟩ = acc)
    (harea : |acc.vpmax.x - acc.vpmin.x| * |acc.vpmax.y - acc.vpmin.y| < 1/100000) :
    processOpening ops mmap nor base_d ci gcg fuel s i op = .st s ∧
    ∀ (openings : List TempOpening) (curmesh : TempMesh) (s2 : GenState),
      openingsLoop ops mmap nor base_d ci gcg fuel openings 0 ⟨[], [], []⟩ = .st s2 →
      s2.contours = [] →
      GenerateOpenings ops mmap nor base_d openings ci gcg fuel curmesh
        = .res false curmesh s2.logs := by
  constructor
  · simp only [processOpening, hacc]
    split_ifs
    any_goals rfl
  · intro openings curmesh s2 hloop hempty
    unfold GenerateOpenings
    rw [hloop]
    have hlen : s2.contours.length = 0 := by rw [hempty]; rfl
    dsimp only
    rw [if_pos hlen]

/-- Witness: the degenerate sliver opening hits the area gate; with it as the
only opening the pipeline reports `false` and hands back the empty mesh it
was given. -/
theorem C4_area_gate_amended_witness :
    GenerateOpenings nullOps id ⟨0, 0, 1⟩ 0 [tinyOpening] false true 10
        TempMesh.empty
      = .res false TempMesh.empty ([] : List String) := by
  have h := C4_area_gate_amended nullOps id ⟨0, 0, 1⟩ 0 false true 10
    ⟨[], [], []⟩ 0 tinyOpening
    (openingFacesGo id ⟨0, 0, 1⟩ false tinyOpening.profileVerts
      tinyOpening.profileVertcnt 0 ⟨qInf, -qInf, v2Inf, v2NegInf, []⟩)
    rfl (by with_unfolding_all decide)
  exact h.2 [tinyOpening] TempMesh.empty ⟨[], [], []⟩
    (by with_unfolding_all decide) rfl

end IFC
